import Mathlib

/-!
Shallow embedding of the BlindMatch contracts.

The repository holds two Solidity variants of the matching contract:

* the 8-bit variant (`src/unnamed/part_000`, contract `BlindMatch` with
  `TOTAL_INTERESTS = 8`): AND of the two encrypted bitmaps, bit-by-bit
  population count, threshold compare, and a pull-style decryption workflow
  (`requestMatchDecryption` / `processMatchDecryption` and the score twins);
* the 32-bit variant (`src/packages/hardhat/contracts/BlindMatch.sol`,
  `TOTAL_INTERESTS = 32`): `FHE.mul` of the bitmaps truncated to `euint8`,
  and a push-style oracle callback (`setOracle` / `handleMatchDecryption`).

FHE ciphertexts are modelled by their plaintexts: the encrypted-value
capability is assumed functionally correct, so `FHE.and` is bitwise and,
`FHE.add` is addition mod 2^8, `FHE.gte`/`FHE.gt` are comparisons, and
`FHE.select` is a conditional.  `FHE.decrypt` only triggers an off-chain
round trip and changes no contract storage; `FHE.getDecryptResultSafe`
returns the plaintext of the stored ciphertext together with an externally
chosen readiness flag, which we pass in as a parameter.
-/

namespace BlindMatch

/-- Participant identity: Ethereum addresses modelled as naturals, `0` being
the zero address. -/
abbrev Addr := Nat

/-- `TOTAL_INTERESTS` of the 8-bit variant. -/
def TOTAL_INTERESTS : Nat := 8

/-- `MATCH_THRESHOLD` of the 8-bit variant (3 of 8 common interests). -/
def MATCH_THRESHOLD : Nat := 3

/-- `FHE.and` on `euint8`, modelled on plaintexts. -/
def fheAnd8 (a b : Nat) : Nat := Nat.land a b

/-- `FHE.add` on `euint8`: addition modulo `2^8`. -/
def fheAdd8 (a b : Nat) : Nat := (a + b) % 256

/-- `FHE.gte` on `euint8`. -/
def fheGte8 (a b : Nat) : Bool := decide (b ≤ a)

/-- `FHE.gt` on `euint8`. -/
def fheGt8 (a b : Nat) : Bool := decide (b < a)

/-- `FHE.select` on `euint8`. -/
def fheSelect8 (c : Bool) (x y : Nat) : Nat := if c then x else y

/-- `_countSetBits` of the 8-bit variant: for each bit position `i < 8`,
isolate the bit with an AND mask, test it against zero, select 1 or 0 and
accumulate into a running count. -/
def countSetBits (value : Nat) : Nat :=
  (List.range 8).foldl
    (fun count i =>
      let bitMask := (1 <<< i) % 256
      let bitValue := fheAnd8 value bitMask
      let addValue := fheSelect8 (fheGt8 bitValue 0) 1 0
      fheAdd8 count addValue)
    0

/-- Specification-side population count over the 8 bit positions. -/
def popCount8 (v : Nat) : Nat := (List.range 8).countP (fun i => v.testBit i)

/-- `UserProfile` of the 8-bit variant.  The Solidity field `exists` is a
Lean keyword and is rendered `exist`. -/
structure UserProfile where
  exist : Bool
  interestsBitmap : Nat
  «matches» : List Addr
  profileCreatedAt : Nat
deriving Repr, DecidableEq

/-- The zero-initialised profile a Solidity mapping yields for an absent
key (also the result of `delete profiles[x]`). -/
def defaultProfile : UserProfile :=
  { exist := false, interestsBitmap := 0, «matches» := [], profileCreatedAt := 0 }

/-- `MatchRequest` of the 8-bit variant. -/
structure MatchRequest where
  requester : Addr
  target : Addr
  similarityScore : Nat
  scoreDecrypted : Bool
  decryptedScore : Nat
  processed : Bool
  timestamp : Nat
  isMatchEncrypted : Bool
  matchDecrypted : Bool
  isMatch : Bool
deriving Repr, DecidableEq

/-- The zero-initialised match request a Solidity mapping yields for an
unknown request id. -/
def defaultRequest : MatchRequest :=
  { requester := 0, target := 0, similarityScore := 0, scoreDecrypted := false,
    decryptedScore := 0, processed := false, timestamp := 0,
    isMatchEncrypted := false, matchDecrypted := false, isMatch := false }

/-- Request identifier.  The source derives it as
`keccak256(abi.encodePacked(requester, targetUser, block.timestamp, block.number))`;
we model the hash by its preimage tuple, which preserves its determinism
(equal inputs give equal ids).  Collisions of keccak256 between distinct
inputs are not modelled. -/
structure RequestId where
  requester : Addr
  target : Addr
  timestamp : Nat
  blockNumber : Nat
deriving Repr, DecidableEq

/-- Contract storage of the 8-bit variant: both Solidity mappings are total
functions returning the zero value off the written domain. -/
structure ContractState where
  profiles : Addr → UserProfile
  matchRequests : RequestId → MatchRequest
  allUsers : List Addr

/-- Storage right after deployment. -/
def initialState : ContractState :=
  { profiles := fun _ => defaultProfile,
    matchRequests := fun _ => defaultRequest,
    allUsers := [] }

/-- Mapping write `profiles[a] = p`. -/
def setProfile (s : ContractState) (a : Addr) (p : UserProfile) : ContractState :=
  { s with profiles := fun x => if x = a then p else s.profiles x }

/-- Mapping write `matchRequests[id] = r`. -/
def setRequest (s : ContractState) (id : RequestId) (r : MatchRequest) : ContractState :=
  { s with matchRequests := fun x => if x = id then r else s.matchRequests x }

/-- Transaction context: `msg.sender`, `block.timestamp`, `block.number`. -/
structure Env where
  sender : Addr
  timestamp : Nat
  blockNumber : Nat
deriving Repr, DecidableEq

/-- Revert reasons of the two contracts, one constructor per require
message. -/
inductive Err where
  | userNotRegistered
  | targetNotExist
  | selfMatch
  | alreadyMatched
  | profileAlreadyExists
  | calcNotFound
  | matchAlreadyDecrypted
  | scoreAlreadyDecrypted
  | matchAlreadyProcessed
  | scoreAlreadyProcessed
  | onlyInvolvedParties
  | decryptionNotReady
  | noTargets
  | tooManyTargets
  | onlyOracle
  | invalidRequestState
deriving Repr, DecidableEq

/-- `isAlreadyMatched`: linear scan of `profiles[user1].matches` for
`user2`, i.e. a membership test in the first argument's match list. -/
def isAlreadyMatched (s : ContractState) (user1 user2 : Addr) : Bool :=
  decide (user2 ∈ (s.profiles user1).«matches»)

/-- `submitProfile`.  `FHE.asEuint8` of the 8-bit ciphertext input is
truncation mod `2^8`. -/
def submitProfile (env : Env) (encryptedInterests : Nat) (s : ContractState) :
    Except Err (ContractState × Unit) :=
  if (s.profiles env.sender).exist then .error .profileAlreadyExists
  else
    let interests := encryptedInterests % 256
    let s1 := setProfile s env.sender
      { exist := true, interestsBitmap := interests, «matches» := [],
        profileCreatedAt := env.timestamp }
    .ok ({ s1 with allUsers := s1.allUsers ++ [env.sender] }, ())

/-- `_calculateSimilarity`: AND of the two stored bitmaps, bit count,
threshold compare, then persist the new `MatchRequest` under the id derived
from requester, target, timestamp and block number. -/
def calcSimilarityInternal (env : Env) (requester targetUser : Addr) (s : ContractState) :
    ContractState × RequestId :=
  let myInterests := (s.profiles requester).interestsBitmap
  let theirInterests := (s.profiles targetUser).interestsBitmap
  let commonInterestsBitmap := fheAnd8 myInterests theirInterests
  let similarityScore := countSetBits commonInterestsBitmap
  let isMatchEncrypted := fheGte8 similarityScore MATCH_THRESHOLD
  let requestId : RequestId :=
    { requester := requester, target := targetUser,
      timestamp := env.timestamp, blockNumber := env.blockNumber }
  let req : MatchRequest :=
    { requester := requester, target := targetUser,
      similarityScore := similarityScore, scoreDecrypted := false,
      decryptedScore := 0, processed := true, timestamp := env.timestamp,
      isMatchEncrypted := isMatchEncrypted, matchDecrypted := false,
      isMatch := false }
  (setRequest s requestId req, requestId)

/-- `calculateSimilarity`: the external entry point with its four
preconditions, in source order. -/
def calculateSimilarity (env : Env) (targetUser : Addr) (s : ContractState) :
    Except Err (ContractState × RequestId) :=
  if (s.profiles env.sender).exist = false then .error .userNotRegistered
  else if (s.profiles targetUser).exist = false then .error .targetNotExist
  else if targetUser = env.sender then .error .selfMatch
  else if isAlreadyMatched s env.sender targetUser then .error .alreadyMatched
  else .ok (calcSimilarityInternal env env.sender targetUser s)

/-- `requestMatchDecryption`.  `FHE.decrypt` triggers the off-chain
decryption and writes no contract storage, so the success branch returns the
state unchanged. -/
def requestMatchDecryption (env : Env) (requestId : RequestId) (s : ContractState) :
    Except Err (ContractState × Unit) :=
  let request := s.matchRequests requestId
  if request.processed = false then .error .calcNotFound
  else if request.matchDecrypted then .error .matchAlreadyDecrypted
  else if env.sender = request.requester ∨ env.sender = request.target then .ok (s, ())
  else .error .onlyInvolvedParties

/-- `requestScoreDecryption`, the score twin of `requestMatchDecryption`. -/
def requestScoreDecryption (env : Env) (requestId : RequestId) (s : ContractState) :
    Except Err (ContractState × Unit) :=
  let request := s.matchRequests requestId
  if request.processed = false then .error .calcNotFound
  else if request.scoreDecrypted then .error .scoreAlreadyDecrypted
  else if env.sender = request.requester ∨ env.sender = request.target then .ok (s, ())
  else .error .onlyInvolvedParties

/-- `profiles[a].matches.push(b)`: append `b` to `a`'s match list, leaving
every other field and profile untouched. -/
def pushMatch (s : ContractState) (a b : Addr) : ContractState :=
  setProfile s a
    { s.profiles a with «matches» := (s.profiles a).«matches» ++ [b] }

/-- `processMatchDecryption`.  `ready` is the readiness flag of
`FHE.getDecryptResultSafe`, whose value component is the plaintext of the
stored ciphertext.  There is no check on `msg.sender`; the `_env` argument
is kept to make that visible. -/
def processMatchDecryption (_env : Env) (requestId : RequestId) (ready : Bool)
    (s : ContractState) : Except Err (ContractState × Unit) :=
  let request := s.matchRequests requestId
  if request.processed = false then .error .calcNotFound
  else if request.matchDecrypted then .error .matchAlreadyProcessed
  else
    let isMatch := request.isMatchEncrypted
    if ready = false then .error .decryptionNotReady
    else
      let s1 := setRequest s requestId
        { request with isMatch := isMatch, matchDecrypted := true }
      if isMatch then
        .ok (pushMatch (pushMatch s1 request.requester request.target)
          request.target request.requester, ())
      else .ok (s1, ())

/-- `processScoreDecryption`.  Like the match twin, no caller check. -/
def processScoreDecryption (_env : Env) (requestId : RequestId) (ready : Bool)
    (s : ContractState) : Except Err (ContractState × Unit) :=
  let request := s.matchRequests requestId
  if request.processed = false then .error .calcNotFound
  else if request.scoreDecrypted then .error .scoreAlreadyProcessed
  else
    let score := request.similarityScore
    if ready = false then .error .decryptionNotReady
    else
      .ok (setRequest s requestId
        { request with decryptedScore := score, scoreDecrypted := true }, ())

/-- The loop body of `batchCalculateSimilarity`: per-target preconditions
in source order, then the internal similarity computation, threading the
state. -/
def batchLoop (env : Env) (targets : List Addr) (s : ContractState)
    (acc : List RequestId) : Except Err (ContractState × List RequestId) :=
  match targets with
  | [] => .ok (s, acc)
  | t :: rest =>
    if (s.profiles t).exist = false then .error .targetNotExist
    else if t = env.sender then .error .selfMatch
    else if isAlreadyMatched s env.sender t then .error .alreadyMatched
    else
      let p := calcSimilarityInternal env env.sender t s
      batchLoop env rest p.1 (acc ++ [p.2])

/-- `batchCalculateSimilarity`: registered-sender modifier, batch-size
bounds, then the per-target loop. -/
def batchCalculateSimilarity (env : Env) (targets : List Addr) (s : ContractState) :
    Except Err (ContractState × List RequestId) :=
  if (s.profiles env.sender).exist = false then .error .userNotRegistered
  else if targets.length = 0 then .error .noTargets
  else if 10 < targets.length then .error .tooManyTargets
  else batchLoop env targets s []

/-- The view returned by `getMatchRequest` of the 8-bit variant. -/
structure MatchRequestView where
  requester : Addr
  target : Addr
  processed : Bool
  timestamp : Nat
  scoreDecrypted : Bool
  decryptedScore : Nat
  matchDecrypted : Bool
  isMatch : Bool
deriving Repr, DecidableEq

/-- `getMatchRequest`: a read of the mapping, never reverting. -/
def getMatchRequest (requestId : RequestId) (s : ContractState) : MatchRequestView :=
  let request := s.matchRequests requestId
  { requester := request.requester, target := request.target,
    processed := request.processed, timestamp := request.timestamp,
    scoreDecrypted := request.scoreDecrypted,
    decryptedScore := request.decryptedScore,
    matchDecrypted := request.matchDecrypted, isMatch := request.isMatch }

/-- Effect of the `deleteProfile` loop on `allUsers`: the first occurrence
of `a` is overwritten with the last element and the last element popped. -/
def deleteFromUsers (l : List Addr) (a : Addr) : List Addr :=
  match l.getLast? with
  | none => l
  | some last => if a ∈ l then (l.set (l.findIdx (· = a)) last).dropLast else l

/-- `deleteProfile`: zeroes the sender's profile and removes the sender
from `allUsers`. -/
def deleteProfile (env : Env) (s : ContractState) : Except Err (ContractState × Unit) :=
  if (s.profiles env.sender).exist = false then .error .userNotRegistered
  else
    let s1 := setProfile s env.sender defaultProfile
    .ok ({ s1 with allUsers := deleteFromUsers s1.allUsers env.sender }, ())

/-- EVM transaction semantics of a call: a revert discards every state
change, success commits the returned state. -/
def applyTx {α : Type} (f : ContractState → Except Err (ContractState × α))
    (s : ContractState) : ContractState :=
  match f s with
  | .ok p => p.1
  | .error _ => s

/-- Whether a call succeeds (does not revert). -/
def succeeds {α : Type} (r : Except Err α) : Bool :=
  match r with
  | .ok _ => true
  | .error _ => false

/-- The external transactions of the 8-bit contract, each with its
transaction context; `ready` of the process transactions is the oracle
readiness observed by `FHE.getDecryptResultSafe`. -/
inductive Op where
  | submit (env : Env) (interests : Nat)
  | calcSim (env : Env) (target : Addr)
  | batchCalc (env : Env) (targets : List Addr)
  | reqMatchDec (env : Env) (rid : RequestId)
  | reqScoreDec (env : Env) (rid : RequestId)
  | procMatchDec (env : Env) (rid : RequestId) (ready : Bool)
  | procScoreDec (env : Env) (rid : RequestId) (ready : Bool)
  | deleteProf (env : Env)
deriving Repr, DecidableEq

/-- One transaction against the ledger, with revert-discards semantics. -/
def execOp (o : Op) (s : ContractState) : ContractState :=
  match o with
  | .submit env i => applyTx (submitProfile env i) s
  | .calcSim env t => applyTx (calculateSimilarity env t) s
  | .batchCalc env ts => applyTx (batchCalculateSimilarity env ts) s
  | .reqMatchDec env rid => applyTx (requestMatchDecryption env rid) s
  | .reqScoreDec env rid => applyTx (requestScoreDecryption env rid) s
  | .procMatchDec env rid ready => applyTx (processMatchDecryption env rid ready) s
  | .procScoreDec env rid ready => applyTx (processScoreDecryption env rid ready) s
  | .deleteProf env => applyTx (deleteProfile env) s

/-- The ledger state after a sequence of transactions from deployment. -/
def execTrace (ops : List Op) : ContractState :=
  ops.foldl (fun s o => execOp o s) initialState

/-- Whether a transaction is `deleteProfile`. -/
def Op.isDeleteProf : Op → Bool
  | .deleteProf _ => true
  | _ => false

/-- Whether a transaction can create a ledger entry under `id`: only the
two comparison entry points write fresh `MatchRequest`s, at ids derived
from sender, target and block data. -/
def opCreatesId (o : Op) (id : RequestId) : Bool :=
  match o with
  | .calcSim env t =>
      id = { requester := env.sender, target := t,
             timestamp := env.timestamp, blockNumber := env.blockNumber }
  | .batchCalc env ts =>
      ts.any (fun t =>
        id = { requester := env.sender, target := t,
               timestamp := env.timestamp, blockNumber := env.blockNumber })
  | _ => false

end BlindMatch

namespace BlindMatch32

open BlindMatch (Addr Env Err)

/-- `MATCH_THRESHOLD` of the 32-bit variant. -/
def MATCH_THRESHOLD : Nat := 8

/-- The similarity score of `calculateAndMatch` in the 32-bit variant:
`FHE.mul(myInterests, theirInterests)` on `euint32` (product modulo `2^32`)
followed by the `FHE.asEuint8` truncation to `2^8`. -/
def similarityScore (my their : Nat) : Nat := ((my * their) % 2 ^ 32) % 2 ^ 8

/-- The encrypted match flag of `calculateAndMatch`:
`FHE.gte(similarityScore, MATCH_THRESHOLD)`. -/
def isMatchEncrypted (my their : Nat) : Bool :=
  decide (MATCH_THRESHOLD ≤ similarityScore my their)

/-- Specification-side population count over the 32 bit positions. -/
def popCount32 (v : Nat) : Nat := (List.range 32).countP (fun i => v.testBit i)

/-- `MatchRequest` of the 32-bit variant (no score-decryption fields). -/
structure MatchRequest where
  requester : Addr
  target : Addr
  similarityScore : Nat
  processed : Bool
  timestamp : Nat
  isMatch : Bool
  matchDecrypted : Bool
deriving Repr, DecidableEq

/-- Zero value of the 32-bit variant's request mapping. -/
def defaultRequest : MatchRequest :=
  { requester := 0, target := 0, similarityScore := 0, processed := false,
    timestamp := 0, isMatch := false, matchDecrypted := false }

/-- Request id of the 32-bit variant:
`keccak256(abi.encodePacked(msg.sender, targetUser, block.timestamp))`,
modelled by its preimage tuple (no block number here). -/
structure RequestId where
  requester : Addr
  target : Addr
  timestamp : Nat
deriving Repr, DecidableEq

/-- The storage of the 32-bit variant that the oracle workflow touches. -/
structure ContractState where
  oracle : Addr
  profiles : Addr → BlindMatch.UserProfile
  matchRequests : RequestId → MatchRequest

/-- `setOracle`: no access control whatsoever (the source comments
"In production, restrict this to onlyOwner or constructor"). -/
def setOracle (_env : Env) (a : Addr) (s : ContractState) :
    Except Err (ContractState × Unit) :=
  .ok ({ s with oracle := a }, ())

/-- `handleMatchDecryption`: the oracle callback, guarded by `onlyOracle`
and by the request being processed and not yet decrypted; on a positive
result it appends each party to the other's match list. -/
def handleMatchDecryption (env : Env) (requestId : RequestId) (isMatch : Bool)
    (s : ContractState) : Except Err (ContractState × Unit) :=
  if env.sender = s.oracle then
    let request := s.matchRequests requestId
    if request.processed ∧ request.matchDecrypted = false then
      let s1 : ContractState :=
        { s with matchRequests := fun x => if x = requestId then
            { request with isMatch := isMatch, matchDecrypted := true }
          else s.matchRequests x }
      if isMatch then
        let pReq := s1.profiles request.requester
        let s2 : ContractState :=
          { s1 with profiles := fun x => if x = request.requester then
              { pReq with «matches» := pReq.«matches» ++ [request.target] }
            else s1.profiles x }
        let pTgt := s2.profiles request.target
        let s3 : ContractState :=
          { s2 with profiles := fun x => if x = request.target then
              { pTgt with «matches» := pTgt.«matches» ++ [request.requester] }
            else s2.profiles x }
        .ok (s3, ())
      else .ok (s1, ())
    else .error .invalidRequestState
  else .error .onlyOracle

/-- A deployment-fresh storage of the 32-bit variant (oracle unset). -/
def sample32 : ContractState :=
  { oracle := 0,
    profiles := fun _ => BlindMatch.defaultProfile,
    matchRequests := fun _ => defaultRequest }

end BlindMatch32

namespace BlindMatch

/-- A target `t` fails a per-target precondition of the batch loop against
ledger state `s` for sender `sender`: non-existent, self, or already
matched. -/
def targetBad (s : ContractState) (sender t : Addr) : Prop :=
  (s.profiles t).exist = false ∨ t = sender ∨ isAlreadyMatched s sender t = true

instance (s : ContractState) (sender t : Addr) : Decidable (targetBad s sender t) := by
  unfold targetBad; infer_instance

/-- The inductive invariant behind symmetry of `isAlreadyMatched` in
`deleteProfile`-free executions: match lists are pairwise consistent,
non-existent profiles have empty match lists, and every processed request
relates two distinct existing profiles. -/
def Inv (s : ContractState) : Prop :=
  (∀ a b : Addr, (b ∈ (s.profiles a).«matches») ↔ (a ∈ (s.profiles b).«matches»)) ∧
  (∀ a : Addr, (s.profiles a).exist = false → (s.profiles a).«matches» = []) ∧
  (∀ rid : RequestId, (s.matchRequests rid).processed = true →
      (s.matchRequests rid).requester ≠ (s.matchRequests rid).target ∧
      (s.profiles (s.matchRequests rid).requester).exist = true ∧
      (s.profiles (s.matchRequests rid).target).exist = true)

/-! Concrete executions used to exhibit reachable states.  Participants `1`
and `2` register with full bitmaps `0b11111111`, so their overlap is 8 bits
and every comparison yields an encrypted match flag of true. -/

/-- Participant 1 registers. -/
def opSubmit1 : Op := .submit ⟨1, 10, 1⟩ 255

/-- Participant 2 registers. -/
def opSubmit2 : Op := .submit ⟨2, 11, 2⟩ 255

/-- Participant 1 compares with 2 at timestamp 20, block 5. -/
def opCompare1 : Op := .calcSim ⟨1, 20, 5⟩ 2

/-- Participant 1 compares with 2 again at timestamp 21, block 6. -/
def opCompare2 : Op := .calcSim ⟨1, 21, 6⟩ 2

/-- Request id committed by `opCompare1`. -/
def rid1 : RequestId := ⟨1, 2, 20, 5⟩

/-- Request id committed by `opCompare2`. -/
def rid2 : RequestId := ⟨1, 2, 21, 6⟩

/-- Both participants registered, nothing compared yet. -/
def stateRegistered : ContractState := execTrace [opSubmit1, opSubmit2]

/-- One committed comparison between 1 and 2, neither half decrypted. -/
def statePending : ContractState := execTrace [opSubmit1, opSubmit2, opCompare1]

/-- Two committed comparisons between 1 and 2, none decrypted. -/
def stateDupPending : ContractState :=
  execTrace [opSubmit1, opSubmit2, opCompare1, opCompare2]

/-- `stateDupPending` after finalizing the match half of the first request. -/
def stateDupHalf : ContractState :=
  applyTx (processMatchDecryption ⟨1, 30, 7⟩ rid1 true) stateDupPending

/-- `stateDupHalf` after also finalizing the match half of the second
request between the same two participants. -/
def stateDupFull : ContractState :=
  applyTx (processMatchDecryption ⟨1, 31, 8⟩ rid2 true) stateDupHalf

/-- Participants 1 and 2 matched, then participant 1 deleted their
profile. -/
def stateDeleted : ContractState :=
  execTrace [opSubmit1, opSubmit2, opCompare1, .procMatchDec ⟨1, 30, 7⟩ rid1 true,
    .deleteProf ⟨1, 40, 9⟩]

/-! ## Basic lemmas about the embedding -/

set_option maxRecDepth 4000 in
/-- The bit-position loop of `_countSetBits` computes the population count
of any 8-bit value. -/
theorem countSetBits_correct : ∀ v < 256, countSetBits v = popCount8 v := by decide

theorem setRequest_at (s : ContractState) (id : RequestId) (r : MatchRequest) :
    (setRequest s id r).matchRequests id = r := by
  simp [setRequest]

theorem setRequest_ne (s : ContractState) (id id' : RequestId) (r : MatchRequest)
    (h : id' ≠ id) : (setRequest s id r).matchRequests id' = s.matchRequests id' := by
  simp [setRequest, h]

theorem setRequest_profiles (s : ContractState) (id : RequestId) (r : MatchRequest) :
    (setRequest s id r).profiles = s.profiles := rfl

theorem setProfile_matchRequests (s : ContractState) (a : Addr) (p : UserProfile) :
    (setProfile s a p).matchRequests = s.matchRequests := rfl

theorem setProfile_at (s : ContractState) (a : Addr) (p : UserProfile) :
    (setProfile s a p).profiles a = p := by
  simp [setProfile]

theorem setProfile_ne (s : ContractState) (a b : Addr) (p : UserProfile)
    (h : b ≠ a) : (setProfile s a p).profiles b = s.profiles b := by
  simp [setProfile, h]

theorem pushMatch_matchRequests (s : ContractState) (a b : Addr) :
    (pushMatch s a b).matchRequests = s.matchRequests := rfl

/-- The profiles after a push: only `a`'s match list changes, by appending
`b`. -/
theorem pushMatch_mem (s : ContractState) (a b x y : Addr) :
    (y ∈ ((pushMatch s a b).profiles x).«matches») ↔
      (y ∈ (s.profiles x).«matches» ∨ (x = a ∧ y = b)) := by
  by_cases hx : x = a
  · subst hx
    simp [pushMatch, setProfile_at]
  · simp [pushMatch, setProfile_ne _ _ _ _ hx, hx]

theorem pushMatch_exist (s : ContractState) (a b x : Addr) :
    ((pushMatch s a b).profiles x).exist = (s.profiles x).exist := by
  by_cases hx : x = a
  · subst hx; simp [pushMatch, setProfile_at]
  · simp [pushMatch, setProfile_ne _ _ _ _ hx]

theorem pushMatch_matches_at (s : ContractState) (a b : Addr) :
    ((pushMatch s a b).profiles a).«matches» = (s.profiles a).«matches» ++ [b] := by
  simp [pushMatch, setProfile_at]

theorem pushMatch_profiles_ne (s : ContractState) (a b x : Addr) (h : x ≠ a) :
    (pushMatch s a b).profiles x = s.profiles x := by
  simp [pushMatch, setProfile_ne _ _ _ _ h]

theorem calcInternal_profiles (env : Env) (r t : Addr) (s : ContractState) :
    ((calcSimilarityInternal env r t s).1).profiles = s.profiles := rfl

theorem calcInternal_rid (env : Env) (r t : Addr) (s : ContractState) :
    (calcSimilarityInternal env r t s).2 =
      ⟨r, t, env.timestamp, env.blockNumber⟩ := rfl

/-- Inversion of a successful `calculateSimilarity` call: all four
preconditions held and the result is the internal computation. -/
theorem calculateSimilarity_ok_inv (env : Env) (target : Addr)
    (s s1 : ContractState) (rid : RequestId)
    (h : calculateSimilarity env target s = .ok (s1, rid)) :
    (s.profiles env.sender).exist = true ∧ (s.profiles target).exist = true ∧
    target ≠ env.sender ∧ isAlreadyMatched s env.sender target = false ∧
    s1 = (calcSimilarityInternal env env.sender target s).1 ∧
    rid = (calcSimilarityInternal env env.sender target s).2 := by
  cases hreg : (s.profiles env.sender).exist with
  | false => simp [calculateSimilarity, hreg] at h
  | true =>
    cases htgt : (s.profiles target).exist with
    | false => simp [calculateSimilarity, hreg, htgt] at h
    | true =>
      by_cases hself : target = env.sender
      · simp [calculateSimilarity, hreg, htgt, hself] at h
      · cases hnm : isAlreadyMatched s env.sender target with
        | true => simp [calculateSimilarity, hreg, htgt, hself, hnm] at h
        | false =>
          have h' : calcSimilarityInternal env env.sender target s = (s1, rid) := by
            simpa [calculateSimilarity, hreg, htgt, hself, hnm] using h
          exact ⟨rfl, rfl, hself, rfl, by rw [h'], by rw [h']⟩

/-- The similarity entry point succeeds exactly when its four
preconditions hold. -/
theorem calculateSimilarity_ok_of_pre (env : Env) (target : Addr) (s : ContractState)
    (hreg : (s.profiles env.sender).exist = true)
    (htgt : (s.profiles target).exist = true)
    (hself : target ≠ env.sender)
    (hnm : isAlreadyMatched s env.sender target = false) :
    calculateSimilarity env target s =
      .ok (calcSimilarityInternal env env.sender target s) := by
  simp [calculateSimilarity, hreg, htgt, hself, hnm]

/-- Supporting fact for the population-count property: in the 8-bit
variant a successful compare stores as encrypted score the exact number of
common set bits of the two stored bitmaps, and as encrypted flag the
comparison of that count against the threshold. -/
theorem calculateSimilarity_stores_popcount (env : Env) (target : Addr)
    (s s1 : ContractState) (rid : RequestId)
    (hA : (s.profiles env.sender).interestsBitmap < 256)
    (hB : (s.profiles target).interestsBitmap < 256)
    (h : calculateSimilarity env target s = .ok (s1, rid)) :
    (s1.matchRequests rid).similarityScore =
      popCount8 (fheAnd8 (s.profiles env.sender).interestsBitmap
        (s.profiles target).interestsBitmap) ∧
    (s1.matchRequests rid).isMatchEncrypted =
      decide (MATCH_THRESHOLD ≤ popCount8 (fheAnd8
        (s.profiles env.sender).interestsBitmap
        (s.profiles target).interestsBitmap)) := by
  obtain ⟨-, -, -, -, hs1, hrid⟩ := calculateSimilarity_ok_inv env target s s1 rid h
  subst hs1; subst hrid
  have hlt : fheAnd8 (s.profiles env.sender).interestsBitmap
      (s.profiles target).interestsBitmap < 256 := by
    have := Nat.bitwise_lt (f := and) (n := 8)
      (x := (s.profiles env.sender).interestsBitmap)
      (y := (s.profiles target).interestsBitmap) (by simpa using hA) (by simpa using hB)
    simpa [fheAnd8, Nat.land] using this
  simp [calcSimilarityInternal, calcInternal_rid, setRequest,
    countSetBits_correct _ hlt, fheGte8]

/-- Supporting fact: finalizing the score half copies the stored encrypted
score into `decryptedScore` and sets the flag. -/
theorem processScoreDecryption_copies (env : Env) (rid : RequestId)
    (ready : Bool) (s s' : ContractState)
    (h : processScoreDecryption env rid ready s = .ok (s', ())) :
    (s'.matchRequests rid).decryptedScore = (s.matchRequests rid).similarityScore ∧
    (s'.matchRequests rid).scoreDecrypted = true := by
  cases hp : (s.matchRequests rid).processed with
  | false => simp [processScoreDecryption, hp] at h
  | true =>
    cases hd : (s.matchRequests rid).scoreDecrypted with
    | true => simp [processScoreDecryption, hp, hd] at h
    | false =>
      cases ready with
      | false => simp [processScoreDecryption, hp, hd] at h
      | true =>
        have h' : setRequest s rid
            { s.matchRequests rid with
                decryptedScore := (s.matchRequests rid).similarityScore,
                scoreDecrypted := true } = s' := by
          simpa [processScoreDecryption, hp, hd] using h
        rw [← h', setRequest_at]
        exact ⟨rfl, rfl⟩

/-- Supporting fact: finalizing the match half copies the stored encrypted
flag into `isMatch` and sets the flag. -/
theorem processMatchDecryption_copies (env : Env) (rid : RequestId)
    (ready : Bool) (s s' : ContractState)
    (h : processMatchDecryption env rid ready s = .ok (s', ())) :
    (s'.matchRequests rid).isMatch = (s.matchRequests rid).isMatchEncrypted ∧
    (s'.matchRequests rid).matchDecrypted = true := by
  cases hp : (s.matchRequests rid).processed with
  | false => simp [processMatchDecryption, hp] at h
  | true =>
    cases hd : (s.matchRequests rid).matchDecrypted with
    | true => simp [processMatchDecryption, hp, hd] at h
    | false =>
      cases ready with
      | false => simp [processMatchDecryption, hp, hd] at h
      | true =>
        cases hm : (s.matchRequests rid).isMatchEncrypted with
        | false =>
          have h' : setRequest s rid
              { s.matchRequests rid with
                  isMatch := (s.matchRequests rid).isMatchEncrypted,
                  matchDecrypted := true } = s' := by
            simpa [processMatchDecryption, hp, hd, hm] using h
          rw [← h', setRequest_at]
          exact ⟨hm, rfl⟩
        | true =>
          have h' : pushMatch (pushMatch (setRequest s rid
                { s.matchRequests rid with
                    isMatch := (s.matchRequests rid).isMatchEncrypted,
                    matchDecrypted := true })
              (s.matchRequests rid).requester (s.matchRequests rid).target)
              (s.matchRequests rid).target (s.matchRequests rid).requester = s' := by
            simpa [processMatchDecryption, hp, hd, hm] using h
          rw [← h', pushMatch_matchRequests, pushMatch_matchRequests, setRequest_at]
          exact ⟨hm, rfl⟩

/-! ## Claim C1 -/

/-- C1: the similarity computation of the 32-bit variant
(`calculateAndMatch`) does not store the population count of the bitmap
intersection.  For the registered bitmaps `my = their = 8` the plaintext
overlap is one bit position (`k = 1`, so with threshold 8 the match flag
ought to be false), yet the stored score is `mul(8, 8)` truncated to 8
bits, i.e. 64, and the stored encrypted flag is true.  The code's own
comment announces counting via AND, and the 8-bit variant (see
`calculateSimilarity_stores_popcount`) implements exactly that, so this is
a slip in the 32-bit code. -/
theorem similarity_score_mul_diverges_from_popcount :
    BlindMatch32.popCount32 (fheAnd8 8 8) = 1 ∧
    BlindMatch32.similarityScore 8 8 = 64 ∧
    BlindMatch32.isMatchEncrypted 8 8 = true ∧
    ¬ BlindMatch32.MATCH_THRESHOLD ≤ BlindMatch32.popCount32 (fheAnd8 8 8) := by
  refine ⟨by decide, by decide, by decide, by decide⟩

/-! ## Claim C8 -/

/-- C8: two successful compare calls with equal requester, target, block
timestamp and block number derive the same request id; the second call
overwrites the ledger record under that id and touches no other id, so no
distinct second entry appears. -/
theorem repeat_compare_same_block_same_requestId (env : Env) (target : Addr)
    (s s1 : ContractState) (rid : RequestId)
    (h : calculateSimilarity env target s = .ok (s1, rid)) :
    ∃ s2, calculateSimilarity env target s1 = .ok (s2, rid) ∧
      s2.matchRequests rid = s1.matchRequests rid ∧
      ∀ id : RequestId, id ≠ rid → s2.matchRequests id = s1.matchRequests id := by
  obtain ⟨hreg, htgt, hself, hnm, hs1, hrid⟩ :=
    calculateSimilarity_ok_inv env target s s1 rid h
  subst hs1; subst hrid
  have hok := calculateSimilarity_ok_of_pre env target
    (calcSimilarityInternal env env.sender target s).1 hreg htgt hself hnm
  refine ⟨(calcSimilarityInternal env env.sender target
    (calcSimilarityInternal env env.sender target s).1).1, ?_, ?_, ?_⟩
  · rw [hok]; rfl
  · simp [calcSimilarityInternal, setRequest]
  · intro id hid
    simp [calcSimilarityInternal, setRequest, calcInternal_rid] at hid ⊢
    simp [hid]

/-- C8 witness: the general theorem applied to the concrete two-user
ledger, where comparing twice in the same block keeps the single entry
`rid1`. -/
theorem repeat_compare_same_block_same_requestId_witness :
    calculateSimilarity ⟨1, 20, 5⟩ 2 stateRegistered = .ok (statePending, rid1) ∧
    ∃ s2, calculateSimilarity ⟨1, 20, 5⟩ 2 statePending = .ok (s2, rid1) ∧
      s2.matchRequests rid1 = statePending.matchRequests rid1 ∧
      ∀ id : RequestId, id ≠ rid1 → s2.matchRequests id = statePending.matchRequests id :=
  ⟨rfl, repeat_compare_same_block_same_requestId ⟨1, 20, 5⟩ 2 stateRegistered
    statePending rid1 rfl⟩

/-! ## Claim C2 -/

/-- C2 counterexample: in the reachable ledger `statePending` the request
`rid1` is between parties 1 and 2, yet both finalize calls made by the
uninvolved identity 3 succeed — `processMatchDecryption` and
`processScoreDecryption` check no caller at all, refuting the claim that
finalize fails with `Unauthorized` for third identities. -/
theorem finalize_by_third_party_succeeds_cex :
    (statePending.matchRequests rid1).requester = 1 ∧
    (statePending.matchRequests rid1).target = 2 ∧
    succeeds (processMatchDecryption ⟨3, 30, 7⟩ rid1 true statePending) = true ∧
    succeeds (processScoreDecryption ⟨3, 30, 7⟩ rid1 true statePending) = true := by
  refine ⟨by decide, by decide, by decide, by decide⟩

/-- C2 (amended): only the two request-decryption entry points enforce
that the caller is the requester or the target — a third identity gets
`Unauthorized` (revert "Only involved parties can decrypt") and the record
is untouched; the two finalize entry points perform no caller check, so
the same third identity's finalize succeeds once the oracle is ready. -/
theorem request_decryption_authorization (env : Env) (rid : RequestId)
    (s : ContractState)
    (hproc : (s.matchRequests rid).processed = true)
    (hmd : (s.matchRequests rid).matchDecrypted = false)
    (hsd : (s.matchRequests rid).scoreDecrypted = false)
    (hs : env.sender ≠ (s.matchRequests rid).requester)
    (ht : env.sender ≠ (s.matchRequests rid).target) :
    requestMatchDecryption env rid s = .error .onlyInvolvedParties ∧
    requestScoreDecryption env rid s = .error .onlyInvolvedParties ∧
    succeeds (processMatchDecryption env rid true s) = true ∧
    succeeds (processScoreDecryption env rid true s) = true := by
  refine ⟨?_, ?_, ?_, ?_⟩
  · simp [requestMatchDecryption, hproc, hmd, hs, ht]
  · simp [requestScoreDecryption, hproc, hsd, hs, ht]
  · cases hm : (s.matchRequests rid).isMatchEncrypted <;>
      simp [processMatchDecryption, hproc, hmd, hm, succeeds]
  · simp [processScoreDecryption, hproc, hsd, succeeds]

/-- C2 witness: the amended theorem applied to `statePending`, `rid1` and
the third identity 3. -/
theorem request_decryption_authorization_witness :
    ((statePending.matchRequests rid1).processed = true ∧
     (statePending.matchRequests rid1).matchDecrypted = false ∧
     (statePending.matchRequests rid1).scoreDecrypted = false ∧
     (3 : Addr) ≠ (statePending.matchRequests rid1).requester ∧
     (3 : Addr) ≠ (statePending.matchRequests rid1).target) ∧
    (requestMatchDecryption ⟨3, 30, 7⟩ rid1 statePending = .error .onlyInvolvedParties ∧
     requestScoreDecryption ⟨3, 30, 7⟩ rid1 statePending = .error .onlyInvolvedParties ∧
     succeeds (processMatchDecryption ⟨3, 30, 7⟩ rid1 true statePending) = true ∧
     succeeds (processScoreDecryption ⟨3, 30, 7⟩ rid1 true statePending) = true) :=
  ⟨⟨by decide, by decide, by decide, by decide, by decide⟩,
   request_decryption_authorization ⟨3, 30, 7⟩ rid1 statePending
     (by decide) (by decide) (by decide) (by decide) (by decide)⟩

/-! ## Claim C3 -/

/-- C3 counterexample: `statePending` is a reachable ledger state holding
the committed, entirely undecrypted request `rid1` for the ordered pair
(1, 2); a second compare by 1 targeting 2 nevertheless succeeds, refuting
the claimed outstanding-comparison lock. -/
theorem second_compare_while_pending_succeeds_cex :
    (statePending.matchRequests rid1).requester = 1 ∧
    (statePending.matchRequests rid1).target = 2 ∧
    (statePending.matchRequests rid1).processed = true ∧
    (statePending.matchRequests rid1).matchDecrypted = false ∧
    (statePending.matchRequests rid1).scoreDecrypted = false ∧
    succeeds (calculateSimilarity ⟨1, 21, 6⟩ 2 statePending) = true := by
  refine ⟨by decide, by decide, by decide, by decide, by decide, by decide⟩

/-- C3 (amended): a committed but not yet decrypted MatchRequest for an
ordered pair is no lock — a second compare for the same ordered pair
succeeds whenever the four preconditions hold; compare rejects a pair only
via the `AlreadyMatched` check (see `compare_fails_when_matched`), which
only match finalization can switch on. -/
theorem compare_unblocked_by_pending_request (env : Env) (target : Addr)
    (s : ContractState) (prid : RequestId)
    (_hpend : (s.matchRequests prid).requester = env.sender ∧
             (s.matchRequests prid).target = target ∧
             (s.matchRequests prid).processed = true ∧
             (s.matchRequests prid).matchDecrypted = false ∧
             (s.matchRequests prid).scoreDecrypted = false)
    (hreg : (s.profiles env.sender).exist = true)
    (htgt : (s.profiles target).exist = true)
    (hself : target ≠ env.sender)
    (hnm : isAlreadyMatched s env.sender target = false) :
    succeeds (calculateSimilarity env target s) = true := by
  rw [calculateSimilarity_ok_of_pre env target s hreg htgt hself hnm]
  rfl

/-- Supporting fact for C3's amendment: the only duplicate-comparison
guard is the `AlreadyMatched` membership check. -/
theorem compare_fails_when_matched (env : Env) (target : Addr) (s : ContractState)
    (hreg : (s.profiles env.sender).exist = true)
    (htgt : (s.profiles target).exist = true)
    (hself : target ≠ env.sender)
    (hm : isAlreadyMatched s env.sender target = true) :
    calculateSimilarity env target s = .error .alreadyMatched := by
  simp [calculateSimilarity, hreg, htgt, hself, hm]

/-- C3 witness: the amended theorem applied to `statePending` with its
pending request `rid1`. -/
theorem compare_unblocked_by_pending_request_witness :
    ((statePending.matchRequests rid1).requester = (⟨1, 21, 6⟩ : Env).sender ∧
     (statePending.matchRequests rid1).target = 2 ∧
     (statePending.matchRequests rid1).processed = true ∧
     (statePending.matchRequests rid1).matchDecrypted = false ∧
     (statePending.matchRequests rid1).scoreDecrypted = false) ∧
    (statePending.profiles (⟨1, 21, 6⟩ : Env).sender).exist = true ∧
    (statePending.profiles 2).exist = true ∧
    (2 : Addr) ≠ (⟨1, 21, 6⟩ : Env).sender ∧
    isAlreadyMatched statePending (⟨1, 21, 6⟩ : Env).sender 2 = false ∧
    succeeds (calculateSimilarity ⟨1, 21, 6⟩ 2 statePending) = true :=
  ⟨⟨by decide, by decide, by decide, by decide, by decide⟩,
   by decide, by decide, by decide, by decide,
   compare_unblocked_by_pending_request ⟨1, 21, 6⟩ 2 statePending rid1
     ⟨by decide, by decide, by decide, by decide, by decide⟩
     (by decide) (by decide) (by decide) (by decide)⟩

/-! ## Claim C5 -/

/-- C5: evaluation of the code at the failing input.  In `statePending`
the request `rid1` has neither half decrypted; a first decryption request
on each half succeeds and — since these entry points write no storage —
returns the state unchanged, and an identical second request on the same
half succeeds as well instead of failing with `AlreadyRequested`.  The
repo's own test "Should prevent duplicate FHE decryption requests" expects
the second call to revert. -/
theorem duplicate_decryption_request_accepted :
    requestMatchDecryption ⟨1, 25, 6⟩ rid1 statePending = .ok (statePending, ()) ∧
    requestMatchDecryption ⟨1, 26, 7⟩ rid1 statePending = .ok (statePending, ()) ∧
    requestScoreDecryption ⟨1, 25, 6⟩ rid1 statePending = .ok (statePending, ()) ∧
    requestScoreDecryption ⟨1, 26, 7⟩ rid1 statePending = .ok (statePending, ()) ∧
    (statePending.matchRequests rid1).matchDecrypted = false ∧
    (statePending.matchRequests rid1).scoreDecrypted = false :=
  ⟨rfl, rfl, rfl, rfl, by decide, by decide⟩

/-! ## Claim C4 -/

/-- C4 counterexample: the reachable state `stateDupFull` was produced by
two compare calls between 1 and 2 (no lock prevents the second, see C3)
followed by finalizing the match half of each of the two requests; both
finalizations revealed true, and each party now appears twice in the
other's matches list — refuting "no later sequence of operations can make
either identity appear more than once". -/
theorem double_match_recording_cex :
    (stateDupFull.profiles 1).«matches».count 2 = 2 ∧
    (stateDupFull.profiles 2).«matches».count 1 = 2 := by
  refine ⟨by decide, by decide⟩

/-- C4 (amended): per MatchRequest the match half is terminal — one
successful finalize appends each party to the other's list exactly once
(when the revealed flag is true; not at all when false), and any repeated
finalize of the same request fails with `AlreadyDecrypted` semantics.
Duplicates remain possible across distinct MatchRequests between the same
pair (see the counterexample). -/
theorem finalize_match_half_terminal (env env2 : Env) (rid : RequestId)
    (ready2 : Bool) (s s' : ContractState)
    (hrt : (s.matchRequests rid).requester ≠ (s.matchRequests rid).target)
    (h : processMatchDecryption env rid true s = .ok (s', ())) :
    processMatchDecryption env2 rid ready2 s' = .error .matchAlreadyProcessed ∧
    ((s.matchRequests rid).isMatchEncrypted = true →
      (s'.profiles (s.matchRequests rid).requester).«matches» =
        (s.profiles (s.matchRequests rid).requester).«matches» ++
          [(s.matchRequests rid).target] ∧
      (s'.profiles (s.matchRequests rid).target).«matches» =
        (s.profiles (s.matchRequests rid).target).«matches» ++
          [(s.matchRequests rid).requester]) ∧
    ((s.matchRequests rid).isMatchEncrypted = false →
      s'.profiles = s.profiles) := by
  cases hp : (s.matchRequests rid).processed with
  | false => simp [processMatchDecryption, hp] at h
  | true =>
    cases hd : (s.matchRequests rid).matchDecrypted with
    | true => simp [processMatchDecryption, hp, hd] at h
    | false =>
      cases hm : (s.matchRequests rid).isMatchEncrypted with
      | false =>
        have h' : setRequest s rid
            { s.matchRequests rid with
                isMatch := (s.matchRequests rid).isMatchEncrypted,
                matchDecrypted := true } = s' := by
          simpa [processMatchDecryption, hp, hd, hm] using h
        have hq : s'.matchRequests rid =
            { s.matchRequests rid with
                isMatch := (s.matchRequests rid).isMatchEncrypted,
                matchDecrypted := true } := by
          rw [← h', setRequest_at]
        refine ⟨?_, ?_, ?_⟩
        · simp [processMatchDecryption, hq, hp]
        · intro hc; exact Bool.noConfusion hc
        · intro _; rw [← h', setRequest_profiles]
      | true =>
        have h' : pushMatch (pushMatch (setRequest s rid
              { s.matchRequests rid with
                  isMatch := (s.matchRequests rid).isMatchEncrypted,
                  matchDecrypted := true })
              (s.matchRequests rid).requester (s.matchRequests rid).target)
            (s.matchRequests rid).target (s.matchRequests rid).requester = s' := by
          simpa [processMatchDecryption, hp, hd, hm] using h
        have hq : s'.matchRequests rid =
            { s.matchRequests rid with
                isMatch := (s.matchRequests rid).isMatchEncrypted,
                matchDecrypted := true } := by
          rw [← h', pushMatch_matchRequests, pushMatch_matchRequests, setRequest_at]
        refine ⟨?_, ?_, ?_⟩
        · simp [processMatchDecryption, hq, hp]
        · intro _
          constructor
          · rw [← h', pushMatch_profiles_ne _ _ _ _ hrt, pushMatch_matches_at]
            rfl
          · rw [← h', pushMatch_matches_at,
              pushMatch_profiles_ne _ _ _ _ (Ne.symm hrt)]
            rfl
        · intro hc; exact Bool.noConfusion hc

/-- C4 witness: in `stateDupPending` the first of the two pending requests
is finalized (revealing true); re-finalizing it fails terminally, and the
single finalize appended each party exactly once. -/
theorem finalize_match_half_terminal_witness :
    ((stateDupPending.matchRequests rid1).requester ≠
      (stateDupPending.matchRequests rid1).target ∧
     processMatchDecryption ⟨1, 30, 7⟩ rid1 true stateDupPending =
       .ok (stateDupHalf, ())) ∧
    (processMatchDecryption ⟨9, 32, 9⟩ rid1 true stateDupHalf =
       .error .matchAlreadyProcessed ∧
     ((stateDupPending.matchRequests rid1).isMatchEncrypted = true →
       (stateDupHalf.profiles (stateDupPending.matchRequests rid1).requester).«matches» =
         (stateDupPending.profiles (stateDupPending.matchRequests rid1).requester).«matches» ++
           [(stateDupPending.matchRequests rid1).target] ∧
       (stateDupHalf.profiles (stateDupPending.matchRequests rid1).target).«matches» =
         (stateDupPending.profiles (stateDupPending.matchRequests rid1).target).«matches» ++
           [(stateDupPending.matchRequests rid1).requester]) ∧
     ((stateDupPending.matchRequests rid1).isMatchEncrypted = false →
       stateDupHalf.profiles = stateDupPending.profiles)) :=
  ⟨⟨by decide, rfl⟩,
   finalize_match_half_terminal ⟨1, 30, 7⟩ ⟨9, 32, 9⟩ rid1 true
     stateDupPending stateDupHalf (by decide) rfl⟩

/-! ## Claim C6 -/

/-- `targetBad` only looks at the profile store. -/
theorem targetBad_of_profiles_eq (s1 s2 : ContractState) (a t : Addr)
    (h : s1.profiles = s2.profiles) : targetBad s1 a t ↔ targetBad s2 a t := by
  simp [targetBad, isAlreadyMatched, h]

/-- If some listed target fails a per-target precondition, the batch loop
reverts (the loop writes only the request ledger, so the precondition
checks are stable across its iterations). -/
theorem batchLoop_aborts (env : Env) :
    ∀ (targets : List Addr) (s : ContractState) (acc : List RequestId),
      (∃ t ∈ targets, targetBad s env.sender t) →
      ∃ e, batchLoop env targets s acc = .error e := by
  intro targets
  induction targets with
  | nil => intro s acc h; simp at h
  | cons t rest ih =>
    intro s acc hbad
    by_cases h1 : (s.profiles t).exist = false
    · exact ⟨.targetNotExist, by simp [batchLoop, h1]⟩
    · have h1' : (s.profiles t).exist = true := by
        cases hx : (s.profiles t).exist with
        | true => rfl
        | false => exact absurd hx h1
      by_cases h2 : t = env.sender
      · exact ⟨.selfMatch, by subst h2; simp [batchLoop, h1']⟩
      · cases h3 : isAlreadyMatched s env.sender t with
        | true => exact ⟨.alreadyMatched, by simp [batchLoop, h1', h2, h3]⟩
        | false =>
          obtain ⟨u, hu, hbadu⟩ := hbad
          rcases List.mem_cons.mp hu with rfl | hurest
          · rcases hbadu with h | h | h
            · exact absurd h h1
            · exact absurd h h2
            · rw [h3] at h; exact Bool.noConfusion h
          · have hb2 : targetBad (calcSimilarityInternal env env.sender t s).1
                env.sender u :=
              (targetBad_of_profiles_eq _ _ _ _
                (calcInternal_profiles env env.sender t s)).mpr hbadu
            obtain ⟨e, he⟩ := ih (calcSimilarityInternal env env.sender t s).1
              (acc ++ [(calcSimilarityInternal env env.sender t s).2])
              ⟨u, hurest, hb2⟩
            exact ⟨e, by simp [batchLoop, h1', h2, h3, he]⟩

/-- C6: a non-empty batch within the size cap that contains a target
failing a per-target precondition (non-existent, self, or already matched)
reverts as a whole: the transaction errors and the committed state is the
original one, so no MatchRequest was created for any listed target,
including valid ones preceding the failing one. -/
theorem batchCalculateSimilarity_all_or_nothing (env : Env) (targets : List Addr)
    (s : ContractState)
    (hreg : (s.profiles env.sender).exist = true)
    (hne : targets ≠ [])
    (hcap : targets.length ≤ 10)
    (hbad : ∃ t ∈ targets, targetBad s env.sender t) :
    (∃ e, batchCalculateSimilarity env targets s = .error e) ∧
    applyTx (batchCalculateSimilarity env targets) s = s := by
  obtain ⟨e, he⟩ := batchLoop_aborts env targets s [] hbad
  have hb : batchCalculateSimilarity env targets s = .error e := by
    simp [batchCalculateSimilarity, hreg, he, List.length_eq_zero, hne,
      Nat.not_lt.mpr hcap]
  exact ⟨⟨e, hb⟩, by simp [applyTx, hb]⟩

/-- C6 witness: participant 1 batches targets `[2, 7]` — 2 is valid and
registered, 7 has no profile — and the whole batch reverts leaving the
ledger exactly as before. -/
theorem batchCalculateSimilarity_all_or_nothing_witness :
    ((stateRegistered.profiles (⟨1, 20, 5⟩ : Env).sender).exist = true ∧
     ([2, 7] : List Addr) ≠ [] ∧
     ([2, 7] : List Addr).length ≤ 10 ∧
     ∃ t ∈ ([2, 7] : List Addr), targetBad stateRegistered 1 t) ∧
    ((∃ e, batchCalculateSimilarity ⟨1, 20, 5⟩ [2, 7] stateRegistered = .error e) ∧
     applyTx (batchCalculateSimilarity ⟨1, 20, 5⟩ [2, 7]) stateRegistered =
       stateRegistered) :=
  ⟨⟨by decide, by decide, by decide, by decide⟩,
   batchCalculateSimilarity_all_or_nothing ⟨1, 20, 5⟩ [2, 7] stateRegistered
     (by decide) (by decide) (by decide) (by decide)⟩

/-! ## Claim C10 -/

theorem calcInternal_matchRequests_ne (env : Env) (r t : Addr) (s : ContractState)
    (id : RequestId) (hid : id ≠ ⟨r, t, env.timestamp, env.blockNumber⟩) :
    ((calcSimilarityInternal env r t s).1).matchRequests id = s.matchRequests id := by
  simp [calcSimilarityInternal, setRequest, hid]

/-- The request-decryption transactions never change storage. -/
theorem requestMatchDecryption_state (env : Env) (rid : RequestId)
    (s : ContractState) : applyTx (requestMatchDecryption env rid) s = s := by
  by_cases h1 : (s.matchRequests rid).processed = false
  · simp [applyTx, requestMatchDecryption, h1]
  · by_cases h2 : (s.matchRequests rid).matchDecrypted = true
    · simp [applyTx, requestMatchDecryption, h1, h2]
    · by_cases h3 : env.sender = (s.matchRequests rid).requester ∨
        env.sender = (s.matchRequests rid).target
      · simp [applyTx, requestMatchDecryption, h1, h2, h3]
      · simp [applyTx, requestMatchDecryption, h1, h2, h3]

theorem requestScoreDecryption_state (env : Env) (rid : RequestId)
    (s : ContractState) : applyTx (requestScoreDecryption env rid) s = s := by
  by_cases h1 : (s.matchRequests rid).processed = false
  · simp [applyTx, requestScoreDecryption, h1]
  · by_cases h2 : (s.matchRequests rid).scoreDecrypted = true
    · simp [applyTx, requestScoreDecryption, h1, h2]
    · by_cases h3 : env.sender = (s.matchRequests rid).requester ∨
        env.sender = (s.matchRequests rid).target
      · simp [applyTx, requestScoreDecryption, h1, h2, h3]
      · simp [applyTx, requestScoreDecryption, h1, h2, h3]

/-- Finalizing an unknown (never created) request reverts: the default
record has `processed = false`. -/
theorem processMatchDecryption_unknown (env : Env) (ready : Bool)
    (s : ContractState) (id : RequestId)
    (h : (s.matchRequests id).processed = false) :
    applyTx (processMatchDecryption env id ready) s = s := by
  simp [applyTx, processMatchDecryption, h]

theorem processScoreDecryption_unknown (env : Env) (ready : Bool)
    (s : ContractState) (id : RequestId)
    (h : (s.matchRequests id).processed = false) :
    applyTx (processScoreDecryption env id ready) s = s := by
  simp [applyTx, processScoreDecryption, h]

/-- Finalizing the match half only ever writes the ledger at its own id. -/
theorem processMatchDecryption_footprint (env : Env) (rid : RequestId)
    (ready : Bool) (s : ContractState) (id : RequestId) (hid : id ≠ rid) :
    (applyTx (processMatchDecryption env rid ready) s).matchRequests id =
      s.matchRequests id := by
  by_cases h1 : (s.matchRequests rid).processed = false
  · simp [applyTx, processMatchDecryption, h1]
  · by_cases h2 : (s.matchRequests rid).matchDecrypted = true
    · simp [applyTx, processMatchDecryption, h1, h2]
    · cases ready with
      | false => simp [applyTx, processMatchDecryption, h1, h2]
      | true =>
        cases h3 : (s.matchRequests rid).isMatchEncrypted with
        | false =>
          simp [applyTx, processMatchDecryption, h1, h2, h3, setRequest, hid]
        | true =>
          simp [applyTx, processMatchDecryption, h1, h2, h3,
            pushMatch_matchRequests, setRequest, hid]

theorem processScoreDecryption_footprint (env : Env) (rid : RequestId)
    (ready : Bool) (s : ContractState) (id : RequestId) (hid : id ≠ rid) :
    (applyTx (processScoreDecryption env rid ready) s).matchRequests id =
      s.matchRequests id := by
  by_cases h1 : (s.matchRequests rid).processed = false
  · simp [applyTx, processScoreDecryption, h1]
  · by_cases h2 : (s.matchRequests rid).scoreDecrypted = true
    · simp [applyTx, processScoreDecryption, h1, h2]
    · cases ready with
      | false => simp [applyTx, processScoreDecryption, h1, h2]
      | true => simp [applyTx, processScoreDecryption, h1, h2, setRequest, hid]

/-- The batch loop only writes the ledger at the ids derived from its
listed targets. -/
theorem batchLoop_preserves_ne (env : Env) (id : RequestId) :
    ∀ (targets : List Addr) (s : ContractState) (acc : List RequestId)
      (s' : ContractState) (out : List RequestId),
      batchLoop env targets s acc = .ok (s', out) →
      targets.any (fun t =>
        id = ⟨env.sender, t, env.timestamp, env.blockNumber⟩) = false →
      s'.matchRequests id = s.matchRequests id := by
  intro targets
  induction targets with
  | nil =>
    intro s acc s' out h hany
    obtain ⟨h1, -⟩ : s = s' ∧ acc = out := by simpa [batchLoop] using h
    rw [← h1]
  | cons t rest ih =>
    intro s acc s' out h hany
    simp only [List.any_cons, Bool.or_eq_false_iff] at hany
    obtain ⟨hid, hrest⟩ := hany
    by_cases h1 : (s.profiles t).exist = false
    · simp [batchLoop, h1] at h
    · have h1' : (s.profiles t).exist = true := by
        cases hx : (s.profiles t).exist with
        | true => rfl
        | false => exact absurd hx h1
      by_cases h2 : t = env.sender
      · subst h2; simp [batchLoop, h1'] at h
      · cases h3 : isAlreadyMatched s env.sender t with
        | true => simp [batchLoop, h1', h2, h3] at h
        | false =>
          have hrec : batchLoop env rest (calcSimilarityInternal env env.sender t s).1
              (acc ++ [(calcSimilarityInternal env env.sender t s).2]) =
                .ok (s', out) := by
            simpa [batchLoop, h1', h2, h3] using h
          have := ih (calcSimilarityInternal env env.sender t s).1
            (acc ++ [(calcSimilarityInternal env env.sender t s).2]) s' out hrec hrest
          rw [this, calcInternal_matchRequests_ne]
          simpa using hid

/-- A transaction that does not create the id `id` leaves the default
record under `id` intact. -/
theorem execOp_preserves_unknown (o : Op) (id : RequestId) (s : ContractState)
    (hno : opCreatesId o id = false)
    (h : s.matchRequests id = defaultRequest) :
    (execOp o s).matchRequests id = defaultRequest := by
  cases o with
  | submit env i =>
    by_cases he : (s.profiles env.sender).exist
    · simpa [execOp, applyTx, submitProfile, he] using h
    · simpa [execOp, applyTx, submitProfile, he, setProfile] using h
  | calcSim env t =>
    have hne : id ≠ ⟨env.sender, t, env.timestamp, env.blockNumber⟩ := by
      simpa [opCreatesId] using hno
    rcases hres : calculateSimilarity env t s with e | ⟨s1, rid⟩
    · simpa [execOp, applyTx, hres] using h
    · obtain ⟨-, -, -, -, hs1, -⟩ := calculateSimilarity_ok_inv env t s s1 rid hres
      have : (execOp (.calcSim env t) s) = s1 := by simp [execOp, applyTx, hres]
      rw [this, hs1, calcInternal_matchRequests_ne env env.sender t s id hne]
      exact h
  | batchCalc env ts =>
    have hany : ts.any (fun t =>
        id = ⟨env.sender, t, env.timestamp, env.blockNumber⟩) = false := by
      simpa [opCreatesId] using hno
    rcases hres : batchCalculateSimilarity env ts s with e | ⟨s1, out⟩
    · simpa [execOp, applyTx, hres] using h
    · have hloop : batchLoop env ts s [] = .ok (s1, out) := by
        by_cases hreg : (s.profiles env.sender).exist = false
        · simp [batchCalculateSimilarity, hreg] at hres
        · by_cases hlen : ts.length = 0
          · simp [batchCalculateSimilarity, hreg, hlen] at hres
          · by_cases hcap : 10 < ts.length
            · simp [batchCalculateSimilarity, hreg, hlen, hcap] at hres
            · simpa [batchCalculateSimilarity, hreg, hlen, hcap] using hres
      have : (execOp (.batchCalc env ts) s) = s1 := by simp [execOp, applyTx, hres]
      rw [this, batchLoop_preserves_ne env id ts s [] s1 out hloop hany]
      exact h
  | reqMatchDec env rid =>
    have : (execOp (.reqMatchDec env rid) s) = s := requestMatchDecryption_state env rid s
    rw [this]; exact h
  | reqScoreDec env rid =>
    have : (execOp (.reqScoreDec env rid) s) = s := requestScoreDecryption_state env rid s
    rw [this]; exact h
  | procMatchDec env rid ready =>
    by_cases hid : id = rid
    · subst hid
      have hp : (s.matchRequests id).processed = false := by rw [h]; rfl
      have : (execOp (.procMatchDec env id ready) s) = s :=
        processMatchDecryption_unknown env ready s id hp
      rw [this]; exact h
    · have := processMatchDecryption_footprint env rid ready s id hid
      rw [show (execOp (.procMatchDec env rid ready) s) =
          applyTx (processMatchDecryption env rid ready) s from rfl, this]
      exact h
  | procScoreDec env rid ready =>
    by_cases hid : id = rid
    · subst hid
      have hp : (s.matchRequests id).processed = false := by rw [h]; rfl
      have : (execOp (.procScoreDec env id ready) s) = s :=
        processScoreDecryption_unknown env ready s id hp
      rw [this]; exact h
    · have := processScoreDecryption_footprint env rid ready s id hid
      rw [show (execOp (.procScoreDec env rid ready) s) =
          applyTx (processScoreDecryption env rid ready) s from rfl, this]
      exact h
  | deleteProf env =>
    by_cases he : (s.profiles env.sender).exist = false
    · simpa [execOp, applyTx, deleteProfile, he] using h
    · simpa [execOp, applyTx, deleteProfile, he, setProfile] using h

theorem execTrace_unknown_aux (id : RequestId) :
    ∀ (ops : List Op) (s : ContractState),
      (∀ o ∈ ops, opCreatesId o id = false) →
      s.matchRequests id = defaultRequest →
      (ops.foldl (fun s o => execOp o s) s).matchRequests id = defaultRequest := by
  intro ops
  induction ops with
  | nil => intro s _ hd; simpa using hd
  | cons o rest ih =>
    intro s h hd
    simp only [List.foldl_cons]
    exact ih (execOp o s) (fun o2 ho2 => h o2 (List.mem_cons_of_mem _ ho2))
      (execOp_preserves_unknown o id s (h o (List.mem_cons_self _ _)) hd)

/-- C10: a `getMatchRequest` query for a request id that no transaction of
the execution ever created succeeds and returns the zero-valued record
snapshot — zero identities, `processed = false`, zero timestamp, both
decrypted flags false — rather than failing with `NotFound`. -/
theorem getMatchRequest_unknown_returns_default (ops : List Op) (id : RequestId)
    (h : ∀ o ∈ ops, opCreatesId o id = false) :
    getMatchRequest id (execTrace ops) =
      { requester := 0, target := 0, processed := false, timestamp := 0,
        scoreDecrypted := false, decryptedScore := 0,
        matchDecrypted := false, isMatch := false } := by
  have hd : (execTrace ops).matchRequests id = defaultRequest :=
    execTrace_unknown_aux id ops initialState h rfl
  simp [getMatchRequest, hd, defaultRequest]

/-- C10 witness: after two registrations and one comparison, the id
`⟨1, 2, 99, 99⟩` was never created and its lookup yields the zero
snapshot. -/
theorem getMatchRequest_unknown_returns_default_witness :
    (opCreatesId opSubmit1 ⟨1, 2, 99, 99⟩ = false ∧
     opCreatesId opSubmit2 ⟨1, 2, 99, 99⟩ = false ∧
     opCreatesId opCompare1 ⟨1, 2, 99, 99⟩ = false) ∧
    getMatchRequest ⟨1, 2, 99, 99⟩ (execTrace [opSubmit1, opSubmit2, opCompare1]) =
      { requester := 0, target := 0, processed := false, timestamp := 0,
        scoreDecrypted := false, decryptedScore := 0,
        matchDecrypted := false, isMatch := false } :=
  ⟨⟨by decide, by decide, by decide⟩,
   getMatchRequest_unknown_returns_default [opSubmit1, opSubmit2, opCompare1]
     ⟨1, 2, 99, 99⟩ (by decide)⟩

end BlindMatch

namespace BlindMatch32

open BlindMatch (Addr Env Err)

/-! ## Claim C9 -/

/-- C9: `setOracle` succeeds unconditionally for every caller and stores
the given address, and from then on the match-decryption callback
`handleMatchDecryption` passes its `onlyOracle` gate exactly for calls
whose sender is that address: any other sender is rejected with the
oracle-only error, while the chosen address is never rejected by that
gate (it can only still fail the request-state check). -/
theorem setOracle_unrestricted_then_oracle_gate (env : Env) (a : Addr)
    (s : ContractState) :
    setOracle env a s = .ok ({ s with oracle := a }, ()) ∧
    ∀ (env2 : Env) (rid : RequestId) (isM : Bool),
      (env2.sender ≠ a →
        handleMatchDecryption env2 rid isM { s with oracle := a } =
          .error .onlyOracle) ∧
      (env2.sender = a →
        handleMatchDecryption env2 rid isM { s with oracle := a } ≠
          .error .onlyOracle) := by
  refine ⟨rfl, fun env2 rid isM => ⟨?_, ?_⟩⟩
  · intro hne
    simp [handleMatchDecryption, hne]
  · intro heq
    simp only [handleMatchDecryption, heq, if_pos]
    split
    · split <;> simp
    · simp

/-- C9 witness: caller 1 (not an owner — there is none) sets the oracle to
5 on the fresh 32-bit state; the callback by sender 4 is rejected by the
gate, while sender 5 passes it. -/
theorem setOracle_unrestricted_then_oracle_gate_witness :
    setOracle ⟨1, 0, 0⟩ 5 sample32 = .ok ({ sample32 with oracle := 5 }, ()) ∧
    ((⟨4, 0, 0⟩ : Env).sender ≠ 5 ∧
     handleMatchDecryption ⟨4, 0, 0⟩ ⟨1, 2, 3⟩ true { sample32 with oracle := 5 } =
       .error .onlyOracle) ∧
    ((⟨5, 0, 0⟩ : Env).sender = 5 ∧
     handleMatchDecryption ⟨5, 0, 0⟩ ⟨1, 2, 3⟩ true { sample32 with oracle := 5 } ≠
       .error .onlyOracle) :=
  ⟨(setOracle_unrestricted_then_oracle_gate ⟨1, 0, 0⟩ 5 sample32).1,
   ⟨by decide,
    ((setOracle_unrestricted_then_oracle_gate ⟨1, 0, 0⟩ 5 sample32).2
      ⟨4, 0, 0⟩ ⟨1, 2, 3⟩ true).1 (by decide)⟩,
   ⟨rfl,
    ((setOracle_unrestricted_then_oracle_gate ⟨1, 0, 0⟩ 5 sample32).2
      ⟨5, 0, 0⟩ ⟨1, 2, 3⟩ true).2 rfl⟩⟩

end BlindMatch32

namespace BlindMatch

/-! ## Claim C7 -/

/-- C7 counterexample: participants 1 and 2 register, compare, finalize
the match half (revealing true, so both match lists gain the other), and
then participant 1 deletes their profile.  In the resulting reachable
state the matched check is asymmetric: it scans only the first argument's
match list, which deletion has wiped. -/
theorem isAlreadyMatched_asymmetric_after_delete_cex :
    isAlreadyMatched stateDeleted 1 2 = false ∧
    isAlreadyMatched stateDeleted 2 1 = true := by
  refine ⟨by decide, by decide⟩

theorem inv_initial : Inv initialState := by
  refine ⟨fun a b => ?_, fun a _ => rfl, fun rid h => ?_⟩
  · simp [initialState, defaultProfile]
  · exact absurd h (by simp [initialState, defaultRequest])

/-- `Inv` does not look at `allUsers`. -/
theorem inv_allUsers (s : ContractState) (l : List Addr) (h : Inv s) :
    Inv { s with allUsers := l } := h

/-- Registering a fresh profile with an empty match list preserves the
invariant: the fresh identity cannot occur in any match list because its
own list was empty and lists are pairwise consistent. -/
theorem inv_setProfile_fresh (s : ContractState) (a : Addr) (p : UserProfile)
    (hInv : Inv s) (he : (s.profiles a).exist = false)
    (hpe : p.exist = true) (hpm : p.«matches» = []) :
    Inv (setProfile s a p) := by
  obtain ⟨hsym, hempty, hreq⟩ := hInv
  have hmt : (s.profiles a).«matches» = [] := hempty a he
  have hnomem : ∀ y : Addr, a ∈ (s.profiles y).«matches» → False := by
    intro y hc
    have := (hsym y a).mp hc
    rw [hmt] at this
    simp at this
  refine ⟨?_, ?_, ?_⟩
  · intro x y
    by_cases hx : x = a
    · subst hx
      by_cases hy : y = x
      · subst hy; exact Iff.rfl
      · rw [setProfile_at, setProfile_ne _ _ _ _ hy, hpm]
        constructor
        · intro hc; simp at hc
        · intro hc; exact absurd (hnomem y hc) not_false
    · by_cases hy : y = a
      · subst hy
        rw [setProfile_at, setProfile_ne _ _ _ _ hx, hpm]
        constructor
        · intro hc; exact absurd (hnomem x hc) not_false
        · intro hc; simp at hc
      · rw [setProfile_ne _ _ _ _ hx, setProfile_ne _ _ _ _ hy]
        exact hsym x y
  · intro x hex
    by_cases hx : x = a
    · subst hx
      rw [setProfile_at] at hex
      rw [hpe] at hex
      exact Bool.noConfusion hex
    · rw [setProfile_ne _ _ _ _ hx] at hex ⊢
      exact hempty x hex
  · intro id hp
    obtain ⟨h1, h2, h3⟩ := hreq id hp
    refine ⟨h1, ?_, ?_⟩
    · by_cases hx : (s.matchRequests id).requester = a
      · show ((setProfile s a p).profiles ((s.matchRequests id).requester)).exist = true
        rw [hx, setProfile_at]; exact hpe
      · show ((setProfile s a p).profiles ((s.matchRequests id).requester)).exist = true
        rw [setProfile_ne _ _ _ _ hx]; exact h2
    · by_cases hx : (s.matchRequests id).target = a
      · show ((setProfile s a p).profiles ((s.matchRequests id).target)).exist = true
        rw [hx, setProfile_at]; exact hpe
      · show ((setProfile s a p).profiles ((s.matchRequests id).target)).exist = true
        rw [setProfile_ne _ _ _ _ hx]; exact h3

theorem inv_submit (env : Env) (i : Nat) (s : ContractState) (hInv : Inv s) :
    Inv (applyTx (submitProfile env i) s) := by
  cases he : (s.profiles env.sender).exist with
  | true => simpa [applyTx, submitProfile, he] using hInv
  | false =>
    have happ : applyTx (submitProfile env i) s =
        { setProfile s env.sender
            { exist := true, interestsBitmap := i % 256, «matches» := [],
              profileCreatedAt := env.timestamp } with
          allUsers := (setProfile s env.sender
            { exist := true, interestsBitmap := i % 256, «matches» := [],
              profileCreatedAt := env.timestamp }).allUsers ++ [env.sender] } := by
      simp [applyTx, submitProfile, he]
    rw [happ]
    exact inv_allUsers _ _ (inv_setProfile_fresh s env.sender _ hInv he rfl rfl)

/-- The internal similarity computation preserves the invariant when its
callers' checks hold: it writes one request relating the two distinct
existing profiles and leaves the profile store alone. -/
theorem inv_calcInternal (env : Env) (r t : Addr) (s : ContractState) (hInv : Inv s)
    (hr : (s.profiles r).exist = true) (ht : (s.profiles t).exist = true)
    (hne : t ≠ r) : Inv (calcSimilarityInternal env r t s).1 := by
  obtain ⟨hsym, hempty, hreq⟩ := hInv
  refine ⟨hsym, hempty, ?_⟩
  intro rid hp
  by_cases hid : rid = ⟨r, t, env.timestamp, env.blockNumber⟩
  · subst hid
    show _ ∧ ((calcSimilarityInternal env r t s).1.profiles _).exist = true ∧
      ((calcSimilarityInternal env r t s).1.profiles _).exist = true
    simp only [calcSimilarityInternal, setRequest_at]
    exact ⟨Ne.symm hne, hr, ht⟩
  · have heq := calcInternal_matchRequests_ne env r t s rid hid
    rw [heq] at hp
    show ((calcSimilarityInternal env r t s).1.matchRequests rid).requester ≠
        ((calcSimilarityInternal env r t s).1.matchRequests rid).target ∧ _ ∧ _
    rw [heq]
    exact hreq rid hp

theorem inv_calcSim (env : Env) (t : Addr) (s : ContractState) (hInv : Inv s) :
    Inv (applyTx (calculateSimilarity env t) s) := by
  rcases hres : calculateSimilarity env t s with e | ⟨s1, rid⟩
  · simpa [applyTx, hres] using hInv
  · obtain ⟨hreg, htgt, hself, -, hs1, -⟩ := calculateSimilarity_ok_inv env t s s1 rid hres
    have happ : applyTx (calculateSimilarity env t) s = s1 := by simp [applyTx, hres]
    rw [happ, hs1]
    exact inv_calcInternal env env.sender t s hInv hreg htgt hself

theorem inv_batchLoop (env : Env) :
    ∀ (targets : List Addr) (s : ContractState) (acc : List RequestId)
      (s' : ContractState) (out : List RequestId),
      batchLoop env targets s acc = .ok (s', out) → Inv s →
      (s.profiles env.sender).exist = true → Inv s' := by
  intro targets
  induction targets with
  | nil =>
    intro s acc s' out h hInv _
    obtain ⟨h1, -⟩ : s = s' ∧ acc = out := by simpa [batchLoop] using h
    rw [← h1]; exact hInv
  | cons t rest ih =>
    intro s acc s' out h hInv hreg
    by_cases h1 : (s.profiles t).exist = false
    · simp [batchLoop, h1] at h
    · have h1' : (s.profiles t).exist = true := by
        cases hx : (s.profiles t).exist with
        | true => rfl
        | false => exact absurd hx h1
      by_cases h2 : t = env.sender
      · subst h2; simp [batchLoop, h1'] at h
      · cases h3 : isAlreadyMatched s env.sender t with
        | true => simp [batchLoop, h1', h2, h3] at h
        | false =>
          have hrec : batchLoop env rest (calcSimilarityInternal env env.sender t s).1
              (acc ++ [(calcSimilarityInternal env env.sender t s).2]) =
                .ok (s', out) := by
            simpa [batchLoop, h1', h2, h3] using h
          exact ih _ _ _ _ hrec
            (inv_calcInternal env env.sender t s hInv hreg h1' h2) hreg

theorem inv_batch (env : Env) (ts : List Addr) (s : ContractState) (hInv : Inv s) :
    Inv (applyTx (batchCalculateSimilarity env ts) s) := by
  rcases hres : batchCalculateSimilarity env ts s with e | ⟨s1, out⟩
  · simpa [applyTx, hres] using hInv
  · have happ : applyTx (batchCalculateSimilarity env ts) s = s1 := by
      simp [applyTx, hres]
    rw [happ]
    by_cases hreg : (s.profiles env.sender).exist = false
    · simp [batchCalculateSimilarity, hreg] at hres
    · have hreg' : (s.profiles env.sender).exist = true := by
        cases hx : (s.profiles env.sender).exist with
        | true => rfl
        | false => exact absurd hx hreg
      by_cases hlen : ts.length = 0
      · simp [batchCalculateSimilarity, hreg, hlen] at hres
      · by_cases hcap : 10 < ts.length
        · simp [batchCalculateSimilarity, hreg, hlen, hcap] at hres
        · have hloop : batchLoop env ts s [] = .ok (s1, out) := by
            simpa [batchCalculateSimilarity, hreg, hlen, hcap] using hres
          exact inv_batchLoop env ts s [] s1 out hloop hInv hreg'

/-- Rewriting one ledger entry without changing its parties, and with a
`processed` flag no fresher than before, preserves the invariant. -/
theorem inv_setRequest_keep (s : ContractState) (rid : RequestId)
    (req' : MatchRequest) (hInv : Inv s)
    (hr : req'.requester = (s.matchRequests rid).requester)
    (ht : req'.target = (s.matchRequests rid).target)
    (hpp : req'.processed = true → (s.matchRequests rid).processed = true) :
    Inv (setRequest s rid req') := by
  obtain ⟨hsym, hempty, hreq⟩ := hInv
  refine ⟨hsym, hempty, ?_⟩
  intro id hp
  by_cases hid : id = rid
  · subst hid
    rw [setRequest_at] at hp
    obtain ⟨h1, h2, h3⟩ := hreq id (hpp hp)
    show ((setRequest s id req').matchRequests id).requester ≠
        ((setRequest s id req').matchRequests id).target ∧ _ ∧ _
    rw [setRequest_at, hr, ht]
    exact ⟨h1, h2, h3⟩
  · rw [setRequest_ne _ _ _ _ hid] at hp
    show ((setRequest s rid req').matchRequests id).requester ≠
        ((setRequest s rid req').matchRequests id).target ∧ _ ∧ _
    rw [setRequest_ne _ _ _ _ hid]
    exact hreq id hp

/-- The double push performed on a positive match preserves the
invariant, given the two parties are distinct existing profiles. -/
theorem inv_pushMatch_pair (s : ContractState) (R T : Addr) (hInv : Inv s)
    (hRT : R ≠ T) (hexR : (s.profiles R).exist = true)
    (hexT : (s.profiles T).exist = true) :
    Inv (pushMatch (pushMatch s R T) T R) := by
  obtain ⟨hsym, hempty, hreq⟩ := hInv
  have hmem : ∀ x y : Addr,
      (y ∈ ((pushMatch (pushMatch s R T) T R).profiles x).«matches») ↔
        (y ∈ (s.profiles x).«matches» ∨ (x = T ∧ y = R) ∨ (x = R ∧ y = T)) := by
    intro x y
    rw [pushMatch_mem, pushMatch_mem]
    tauto
  refine ⟨?_, ?_, ?_⟩
  · intro x y
    rw [hmem, hmem, hsym x y]
    tauto
  · intro x hex
    rw [pushMatch_exist, pushMatch_exist] at hex
    have hxR : x ≠ R := by
      intro hh; subst hh; rw [hexR] at hex; exact Bool.noConfusion hex
    have hxT : x ≠ T := by
      intro hh; subst hh; rw [hexT] at hex; exact Bool.noConfusion hex
    rw [pushMatch_profiles_ne _ _ _ _ hxT, pushMatch_profiles_ne _ _ _ _ hxR]
    exact hempty x hex
  · intro id hp
    obtain ⟨h1, h2, h3⟩ := hreq id hp
    refine ⟨h1, ?_, ?_⟩
    · show ((pushMatch (pushMatch s R T) T R).profiles
        ((s.matchRequests id).requester)).exist = true
      rw [pushMatch_exist, pushMatch_exist]; exact h2
    · show ((pushMatch (pushMatch s R T) T R).profiles
        ((s.matchRequests id).target)).exist = true
      rw [pushMatch_exist, pushMatch_exist]; exact h3

theorem inv_procScore (env : Env) (rid : RequestId) (ready : Bool)
    (s : ContractState) (hInv : Inv s) :
    Inv (applyTx (processScoreDecryption env rid ready) s) := by
  by_cases h1 : (s.matchRequests rid).processed = false
  · simpa [applyTx, processScoreDecryption, h1] using hInv
  · by_cases h2 : (s.matchRequests rid).scoreDecrypted = true
    · simpa [applyTx, processScoreDecryption, h1, h2] using hInv
    · cases ready with
      | false => simpa [applyTx, processScoreDecryption, h1, h2] using hInv
      | true =>
        have happ : applyTx (processScoreDecryption env rid true) s =
            setRequest s rid
              { s.matchRequests rid with
                  decryptedScore := (s.matchRequests rid).similarityScore,
                  scoreDecrypted := true } := by
          simp [applyTx, processScoreDecryption, h1, h2]
        rw [happ]
        exact inv_setRequest_keep s rid _ hInv rfl rfl (fun _ => by
          cases hx : (s.matchRequests rid).processed with
          | true => rfl
          | false => exact absurd hx h1)

theorem inv_procMatch (env : Env) (rid : RequestId) (ready : Bool)
    (s : ContractState) (hInv : Inv s) :
    Inv (applyTx (processMatchDecryption env rid ready) s) := by
  by_cases h1 : (s.matchRequests rid).processed = false
  · simpa [applyTx, processMatchDecryption, h1] using hInv
  · have h1' : (s.matchRequests rid).processed = true := by
      cases hx : (s.matchRequests rid).processed with
      | true => rfl
      | false => exact absurd hx h1
    by_cases h2 : (s.matchRequests rid).matchDecrypted = true
    · simpa [applyTx, processMatchDecryption, h1, h2] using hInv
    · cases ready with
      | false => simpa [applyTx, processMatchDecryption, h1, h2] using hInv
      | true =>
        obtain ⟨hRT, hexR, hexT⟩ := hInv.2.2 rid h1'
        have hkeep : Inv (setRequest s rid
            { s.matchRequests rid with
                isMatch := (s.matchRequests rid).isMatchEncrypted,
                matchDecrypted := true }) :=
          inv_setRequest_keep s rid _ hInv rfl rfl (fun _ => h1')
        cases hm : (s.matchRequests rid).isMatchEncrypted with
        | false =>
          have happ : applyTx (processMatchDecryption env rid true) s =
              setRequest s rid
                { s.matchRequests rid with
                    isMatch := (s.matchRequests rid).isMatchEncrypted,
                    matchDecrypted := true } := by
            simp [applyTx, processMatchDecryption, h1, h2, hm]
          rw [happ]
          exact hkeep
        | true =>
          have happ : applyTx (processMatchDecryption env rid true) s =
              pushMatch (pushMatch (setRequest s rid
                  { s.matchRequests rid with
                      isMatch := (s.matchRequests rid).isMatchEncrypted,
                      matchDecrypted := true })
                  (s.matchRequests rid).requester (s.matchRequests rid).target)
                (s.matchRequests rid).target (s.matchRequests rid).requester := by
            simp [applyTx, processMatchDecryption, h1, h2, hm]
          rw [happ]
          exact inv_pushMatch_pair _ _ _ hkeep hRT hexR hexT

theorem inv_execOp (o : Op) (s : ContractState) (hdel : o.isDeleteProf = false)
    (hInv : Inv s) : Inv (execOp o s) := by
  cases o with
  | submit env i => exact inv_submit env i s hInv
  | calcSim env t => exact inv_calcSim env t s hInv
  | batchCalc env ts => exact inv_batch env ts s hInv
  | reqMatchDec env rid =>
    have h := requestMatchDecryption_state env rid s
    show Inv (applyTx (requestMatchDecryption env rid) s)
    rw [h]; exact hInv
  | reqScoreDec env rid =>
    have h := requestScoreDecryption_state env rid s
    show Inv (applyTx (requestScoreDecryption env rid) s)
    rw [h]; exact hInv
  | procMatchDec env rid ready => exact inv_procMatch env rid ready s hInv
  | procScoreDec env rid ready => exact inv_procScore env rid ready s hInv
  | deleteProf env => exact Bool.noConfusion hdel

theorem inv_trace_aux :
    ∀ (ops : List Op) (s : ContractState),
      (∀ o ∈ ops, o.isDeleteProf = false) → Inv s →
      Inv (ops.foldl (fun s o => execOp o s) s) := by
  intro ops
  induction ops with
  | nil => intro s _ hInv; simpa using hInv
  | cons o rest ih =>
    intro s h hInv
    simp only [List.foldl_cons]
    exact ih (execOp o s) (fun o2 ho2 => h o2 (List.mem_cons_of_mem _ ho2))
      (inv_execOp o s (h o (List.mem_cons_self _ _)) hInv)

/-- C7 (amended): the matched check scans only its first argument's match
list, so it is not symmetric in every reachable state — after one side
deletes their profile it answers false in one direction and true in the
other (see the counterexample).  Symmetry does hold in every state
reachable without `deleteProfile`, because match lists are only ever
extended pairwise by match finalization. -/
theorem isAlreadyMatched_symmetric_without_delete (ops : List Op)
    (hdel : ∀ o ∈ ops, o.isDeleteProf = false) (a b : Addr) :
    isAlreadyMatched (execTrace ops) a b = isAlreadyMatched (execTrace ops) b a := by
  have hInv : Inv (execTrace ops) := inv_trace_aux ops initialState hdel inv_initial
  simp only [isAlreadyMatched]
  exact decide_eq_decide.mpr (hInv.1 a b)

/-- C7 witness: a delete-free execution in which 1 and 2 register, compare
and finalize a positive match; the matched check agrees in both
directions. -/
theorem isAlreadyMatched_symmetric_without_delete_witness :
    (Op.isDeleteProf opSubmit1 = false ∧ Op.isDeleteProf opSubmit2 = false ∧
     Op.isDeleteProf opCompare1 = false ∧
     Op.isDeleteProf (.procMatchDec ⟨1, 30, 7⟩ rid1 true) = false) ∧
    isAlreadyMatched (execTrace [opSubmit1, opSubmit2, opCompare1,
        .procMatchDec ⟨1, 30, 7⟩ rid1 true]) 1 2 =
      isAlreadyMatched (execTrace [opSubmit1, opSubmit2, opCompare1,
        .procMatchDec ⟨1, 30, 7⟩ rid1 true]) 2 1 :=
  ⟨⟨by decide, by decide, by decide, by decide⟩,
   isAlreadyMatched_symmetric_without_delete
     [opSubmit1, opSubmit2, opCompare1, .procMatchDec ⟨1, 30, 7⟩ rid1 true]
     (by decide) 1 2⟩

end BlindMatch
